import Mathlib

/-!
Verification of the OpenAI Codex provider (`py/providers/openai_codex.py`):
a shallow embedding of the provider's prompt compiler, option normalizer,
request builder, streaming decoder, response mapper, authentication-header
construction and constructor checks, together with theorems settling the
frozen specification claims.

Python values flowing through the provider (configuration options and
JSON-decoded data) are modelled by the `PyVal` universe; Python `dict`s are
modelled as association lists or as functional maps `String → Option PyVal`
(the provider only reads/updates string keys).  The standard-library
functions `json.loads`, `int`, `float` are modelled by executable parsers on
the fragment the provider exercises (ASCII decimal numbers, JSON without
exponents or unicode escapes).
-/

/-- A Python value as used by the provider: configuration option values and
JSON-decoded response data.  `float` is modelled by a rational number. -/
inductive PyVal where
  | none
  | bool (b : Bool)
  | int (n : Int)
  | float (q : Rat)
  | str (s : String)
  | list (l : List PyVal)
  | dict (l : List (String × PyVal))
deriving Repr

/-- Python truthiness (`bool(v)`) for the values the provider tests. -/
def pyTruthy : PyVal → Bool
  | PyVal.none => false
  | PyVal.bool b => b
  | PyVal.int n => !(n == 0)
  | PyVal.float q => !(q == 0)
  | PyVal.str s => !(s == "")
  | PyVal.list l => !l.isEmpty
  | PyVal.dict l => !l.isEmpty

/-- Python `value in ("", None)`: under Python `==`, only the empty string
equals `""` and only `None` equals `None`. -/
def isEmptyOrNone : PyVal → Bool
  | PyVal.str s => s == ""
  | PyVal.none => true
  | _ => false

/-- Python `value == 0`: numeric equality, satisfied by the integer zero,
the float zero and `False` (Python compares them numerically). -/
def eqZero : PyVal → Bool
  | PyVal.int n => n == 0
  | PyVal.float q => q == 0
  | PyVal.bool b => !b
  | _ => false

/-- Character-list core of Python's `str.startswith`. -/
def startsWithChars : List Char → List Char → Bool
  | [], _ => true
  | _ :: _, [] => false
  | p :: ps, c :: cs => p == c && startsWithChars ps cs

/-- Python `s.startswith(pat)`. -/
def pyStartsWith (s pat : String) : Bool :=
  startsWithChars pat.data s.data

/-- Python `s.strip()`: surrounding whitespace removed (a structurally
recursive model, used in place of `String.trim`). -/
def pyStrip (s : String) : String :=
  ⟨((s.data.dropWhile Char.isWhitespace).reverse.dropWhile
      Char.isWhitespace).reverse⟩

/-- Splitting loop of the Python `s.split(",")` model. -/
def splitCommaGo : List Char → List Char → List String
  | [], acc => [⟨acc.reverse⟩]
  | c :: rest, acc =>
    if c == ',' then ⟨acc.reverse⟩ :: splitCommaGo rest []
    else splitCommaGo rest (c :: acc)

/-- Python `s.split(",")` (a structurally recursive model, used in place of
`String.splitOn`). -/
def pySplitComma (s : String) : List String :=
  splitCommaGo s.data []

/-- Digits of an ASCII decimal literal accumulated into a natural number. -/
def digitsToNat (l : List Char) : Nat :=
  l.foldl (fun n c => 10 * n + (c.toNat - '0'.toNat)) 0

/-- Python `int(s)` on the fragment the provider exercises: optional
surrounding whitespace, optional sign, ASCII digits (digit-group
underscores and non-ASCII digits are not modelled). -/
def pyParseInt (s : String) : Option Int :=
  let cs := (s.data.dropWhile Char.isWhitespace).reverse.dropWhile Char.isWhitespace |>.reverse
  let (sign, ds) : Int × List Char :=
    match cs with
    | '-' :: rest => (-1, rest)
    | '+' :: rest => (1, rest)
    | rest => (1, rest)
  if ds.isEmpty || !ds.all Char.isDigit then Option.none
  else some (sign * (digitsToNat ds : Int))

/-- Python `float(s)` on the fragment the provider exercises: optional
surrounding whitespace, optional sign, decimal digits with an optional
fractional part (exponents, `inf` and `nan` are not modelled).  The value
is represented exactly as a rational. -/
def pyParseFloat (s : String) : Option Rat :=
  let cs := (s.data.dropWhile Char.isWhitespace).reverse.dropWhile Char.isWhitespace |>.reverse
  let (sign, ds) : Int × List Char :=
    match cs with
    | '-' :: rest => (-1, rest)
    | '+' :: rest => (1, rest)
    | rest => (1, rest)
  let intPart := ds.takeWhile Char.isDigit
  let rest := ds.drop intPart.length
  match rest with
  | [] =>
    if intPart.isEmpty then Option.none
    else some (sign * (digitsToNat intPart : Int) : Rat)
  | '.' :: fracPart =>
    if !fracPart.all Char.isDigit then Option.none
    else if intPart.isEmpty && fracPart.isEmpty then Option.none
    else some (mkRat (sign * (digitsToNat (intPart ++ fracPart) : Int)) (10 ^ fracPart.length))
  | _ => Option.none

/-- JSON whitespace skipping used by the `json.loads` model. -/
def skipJsonWs (cs : List Char) : List Char :=
  cs.dropWhile (fun c => c == ' ' || c == '\t' || c == '\n' || c == '\r')

/-- String-literal body of the `json.loads` model: consumes characters up
to the closing quote, handling the single-character escapes (the `\uXXXX`
escape is not modelled). -/
def parseJsonString : List Char → Option (String × List Char)
  | [] => Option.none
  | '"' :: rest => some ("", rest)
  | '\\' :: e :: rest =>
    let mapped : Option Char :=
      if e == '"' then some '"'
      else if e == '\\' then some '\\'
      else if e == '/' then some '/'
      else if e == 'n' then some '\n'
      else if e == 't' then some '\t'
      else if e == 'r' then some '\r'
      else if e == 'b' then some (Char.ofNat 8)
      else if e == 'f' then some (Char.ofNat 12)
      else Option.none
    match mapped, parseJsonString rest with
    | some c, some (s, rem) => some (⟨c :: s.data⟩, rem)
    | _, _ => Option.none
  | c :: rest =>
    match parseJsonString rest with
    | some (s, rem) => some (⟨c :: s.data⟩, rem)
    | Option.none => Option.none

/-- Number token of the `json.loads` model: optional minus sign, digits,
optional fractional digits; integers decode to `PyVal.int` and decimals to
`PyVal.float` (exponents are not modelled). -/
def parseJsonNumber (cs : List Char) : Option (PyVal × List Char) :=
  let (sign, ds) : Int × List Char :=
    match cs with
    | '-' :: rest => (-1, rest)
    | rest => (1, rest)
  let intPart := ds.takeWhile Char.isDigit
  if intPart.isEmpty then Option.none
  else
    let rest := ds.drop intPart.length
    match rest with
    | '.' :: rest' =>
      let fracPart := rest'.takeWhile Char.isDigit
      if fracPart.isEmpty then Option.none
      else
        some (PyVal.float (mkRat (sign * (digitsToNat (intPart ++ fracPart) : Int))
                (10 ^ fracPart.length)),
              rest'.drop fracPart.length)
    | _ => some (PyVal.int (sign * (digitsToNat intPart : Int)), rest)

mutual

/-- Value parser of the `json.loads` model (fuel-indexed recursive descent). -/
def parseJsonVal : Nat → List Char → Option (PyVal × List Char)
  | 0, _ => Option.none
  | Nat.succ fuel, cs =>
    match skipJsonWs cs with
    | [] => Option.none
    | 'n' :: 'u' :: 'l' :: 'l' :: rest => some (PyVal.none, rest)
    | 't' :: 'r' :: 'u' :: 'e' :: rest => some (PyVal.bool true, rest)
    | 'f' :: 'a' :: 'l' :: 's' :: 'e' :: rest => some (PyVal.bool false, rest)
    | '"' :: rest =>
      match parseJsonString rest with
      | some (s, rem) => some (PyVal.str s, rem)
      | Option.none => Option.none
    | '[' :: rest =>
      match skipJsonWs rest with
      | ']' :: rem => some (PyVal.list [], rem)
      | rest' =>
        match parseJsonItems fuel rest' with
        | some (items, rem) => some (PyVal.list items, rem)
        | Option.none => Option.none
    | '\x7b' :: rest =>
      match skipJsonWs rest with
      | '\x7d' :: rem => some (PyVal.dict [], rem)
      | rest' =>
        match parseJsonFields fuel rest' with
        | some (fields, rem) => some (PyVal.dict fields, rem)
        | Option.none => Option.none
    | cs' => parseJsonNumber cs'

/-- Array-element list parser of the `json.loads` model. -/
def parseJsonItems : Nat → List Char → Option (List PyVal × List Char)
  | 0, _ => Option.none
  | Nat.succ fuel, cs =>
    match parseJsonVal fuel cs with
    | Option.none => Option.none
    | some (v, rest) =>
      match skipJsonWs rest with
      | ',' :: rest' =>
        match parseJsonItems fuel rest' with
        | some (items, rem) => some (v :: items, rem)
        | Option.none => Option.none
      | ']' :: rem => some ([v], rem)
      | _ => Option.none

/-- Object-field list parser of the `json.loads` model. -/
def parseJsonFields : Nat → List Char → Option (List (String × PyVal) × List Char)
  | 0, _ => Option.none
  | Nat.succ fuel, cs =>
    match skipJsonWs cs with
    | '"' :: rest =>
      match parseJsonString rest with
      | Option.none => Option.none
      | some (key, rest') =>
        match skipJsonWs rest' with
        | ':' :: rest'' =>
          match parseJsonVal fuel rest'' with
          | Option.none => Option.none
          | some (v, rem) =>
            match skipJsonWs rem with
            | ',' :: rem' =>
              match parseJsonFields fuel rem' with
              | some (fields, rem'') => some ((key, v) :: fields, rem'')
              | Option.none => Option.none
            | '\x7d' :: rem' => some ([(key, v)], rem')
            | _ => Option.none
        | _ => Option.none
    | _ => Option.none

end

/-- Model of Python `json.loads` on the fragment the provider exercises:
parse one JSON value and require only whitespace to remain. -/
def json_loads (s : String) : Option PyVal :=
  match parseJsonVal (2 * s.length + 2) s.data with
  | some (v, rest) => if (skipJsonWs rest).isEmpty then some v else Option.none
  | Option.none => Option.none

/-- Error raised through `utils.make_known_error`.  The source signals both
kinds as message strings; the identifying data (offending option key and
raw value for configuration errors, the message for capability errors) is
kept structurally so that theorems can name it. -/
inductive KnownError where
  | config (key : String) (raw : String)
  | capability (msg : String)
deriving Repr, DecidableEq

/-- An options mapping (Python `dict` with string keys) read by key. -/
def Opts : Type := String → Option PyVal

/-- Update of an options mapping at one key (`options[name] = v`). -/
def setOpt (o : Opts) (name : String) (v : PyVal) : Opts :=
  fun k => if k = name then some v else o k

/-- One step of `_parse_raw_options._convert_option`: if `name` is present,
its value is a string and the string is non-empty, replace it by the
converted value, raising a configuration error naming the key and raw value
when conversion fails; otherwise leave the mapping unchanged. -/
def convertOption (name : String) (conv : String → Option PyVal) (opts : Opts) :
    Except KnownError Opts :=
  match opts name with
  | some (PyVal.str s) =>
    if s = "" then Except.ok opts
    else
      match conv s with
      | some v => Except.ok (setOpt opts name v)
      | Option.none => Except.error (KnownError.config name s)
  | _ => Except.ok opts

/-- Converter `float` used by the normalizer. -/
def convFloat (s : String) : Option PyVal := (pyParseFloat s).map PyVal.float

/-- Converter `int` used by the normalizer. -/
def convInt (s : String) : Option PyVal := (pyParseInt s).map PyVal.int

/-- Converter `lambda x: bool(int(x))` used by the normalizer for `stream`. -/
def convStream (s : String) : Option PyVal :=
  (pyParseInt s).map (fun n => PyVal.bool (!(n == 0)))

/-- Converter `str` used by the normalizer for `suffix` (the identity on
strings, never failing). -/
def convStr (s : String) : Option PyVal := some (PyVal.str s)

/-- Converter `json.loads` used by the normalizer for `stop`/`logit_bias`. -/
def convJson (s : String) : Option PyVal := json_loads s

/-- The thirteen `_convert_option` calls of `_parse_raw_options`, in source
order, with their converters. -/
def conversions : List (String × (String → Option PyVal)) :=
  [("request_timeout", convFloat),
   ("temperature", convFloat),
   ("max_tokens", convInt),
   ("top_p", convFloat),
   ("presence_penalty", convFloat),
   ("frequency_penalty", convFloat),
   ("best_of", convInt),
   ("n", convInt),
   ("stream", convStream),
   ("logprobs", convInt),
   ("suffix", convStr),
   ("stop", convJson),
   ("logit_bias", convJson)]

/-- `OpenAICodexProvider._parse_raw_options`: apply the thirteen conversion
steps to a copy of the raw options, stopping at the first failure. -/
def parse_raw_options (raw_options : Opts) : Except KnownError Opts :=
  conversions.foldlM (fun o c => convertOption c.1 c.2 o) raw_options

/-- The allowlist `option_keys` of `_make_codex_options`, in source order. -/
def option_keys : List String :=
  ["suffix", "max_tokens", "temperature", "top_p", "n", "stream", "logprobs",
   "stop", "presence_penalty", "frequency_penalty", "best_of", "logit_bias"]

/-- The count-like subset literal of `_make_codex_options`
(`key in {"max_tokens", "logprobs", "best_of", "n"}`). -/
def count_like (key : String) : Bool :=
  key == "max_tokens" || key == "logprobs" || key == "best_of" || key == "n"

/-- Loop body of `_make_codex_options`: the payload entry contributed by an
allowlisted key, or nothing when the key is absent, its value equals the
`""`/`None` sentinel, or the key is count-like and its value equals zero. -/
def buildEntry (options : Opts) (key : String) : Option (String × PyVal) :=
  match options key with
  | Option.none => Option.none
  | some value =>
    if isEmptyOrNone value then Option.none
    else if count_like key && eqZero value then Option.none
    else some (key, value)

/-- `OpenAICodexProvider._make_codex_options`: the payload starts with the
mandatory `model` entry (`options["model"]`, a `KeyError` — modelled as
`Option.none` — when absent) followed by the allowlisted entries in
`option_keys` order. -/
def make_codex_options (options : Opts) : Option (List (String × PyVal)) :=
  match options "model" with
  | some m => some (("model", m) :: option_keys.filterMap (buildEntry options))
  | Option.none => Option.none

/-- One content part of a message (`{"type": ..., "text": ...}`); either
field may be absent. -/
structure ContentPart where
  type : Option String
  text : Option String
deriving Repr, DecidableEq

/-- One conversation message; an absent `content` key defaults to the empty
list in the source and is modelled as `[]`. -/
structure AIMessage where
  role : Option String
  content : List ContentPart
deriving Repr, DecidableEq

/-- The `role_labels` table lookup with default `"User"`
(`role_labels.get(message.get("role", "user"), "User")` applied to a
present role string). -/
def roleLabel (role : String) : String :=
  if role = "system" then "System"
  else if role = "user" then "User"
  else if role = "assistant" then "Assistant"
  else if role = "tool" then "Tool"
  else "User"

/-- Per-message text of `_messages_to_prompt`: the `text` of the text-type
content parts, the empty ones dropped (`filter(None, text_chunks)`), joined
by newlines and stripped. -/
def messageText (m : AIMessage) : String :=
  pyStrip (String.intercalate "\n"
    (((m.content.filter (fun c => c.type == some "text")).map
        (fun c => c.text.getD "")).filter (fun s => s != "")))

/-- The `prompt_parts` accumulation loop of `_messages_to_prompt`. -/
def promptParts (messages : List AIMessage) : List String :=
  messages.foldl
    (fun acc m =>
      let text := messageText m
      if text = "" then acc
      else acc ++ [roleLabel ((m.role).getD "user") ++ "::\n" ++ text])
    []

/-- The marker step of `_messages_to_prompt`: append a trailing
`"Assistant::"` part when the list is empty or its last part does not start
with `"Assistant::"`. -/
def finalParts (messages : List AIMessage) : List String :=
  let parts := promptParts messages
  match parts.getLast? with
  | Option.none => parts ++ ["Assistant::"]
  | some last =>
    if pyStartsWith last "Assistant::" then parts else parts ++ ["Assistant::"]

/-- `OpenAICodexProvider._messages_to_prompt`: the parts joined by a blank
line. -/
def messages_to_prompt (messages : List AIMessage) : String :=
  String.intercalate "\n\n" (finalParts messages)

/-- `OpenAICodexProvider._load_api_key` applied to the retrieved credential
string: strip, split on commas, first segment stripped as the API key,
second segment stripped as the organization id when more than one segment
exists. -/
def load_api_key (raw_api_key : String) : String × Option String :=
  let elements := pySplitComma (pyStrip raw_api_key)
  let api_key := pyStrip (elements.headD "")
  let org_id := if 1 < elements.length then some (pyStrip (elements.getD 1 ""))
                else Option.none
  (api_key, org_id)

/-- Header construction of `_openai_request`: the two fixed headers plus the
authentication headers selected by `auth_type` (`raw_api_key` stands for the
credential string returned by the external capability). -/
def build_headers (auth_type : String) (raw_api_key : String) :
    List (String × String) :=
  let base := [("Content-Type", "application/json"), ("User-Agent", "VimAI")]
  if auth_type = "bearer" then
    let keyOrg := load_api_key raw_api_key
    base ++ [("Authorization", "Bearer " ++ keyOrg.1)] ++
      (match keyOrg.2 with
       | some o => if o = "" then [] else [("OpenAI-Organization", o)]
       | Option.none => [])
  else if auth_type = "api-key" then
    base ++ [("api-key", (load_api_key raw_api_key).1)]
  else base

/-- Streaming loop of `_openai_request`: for each response line, skip it
unless it starts with `"data: "`; strip the prefix and surrounding
whitespace; skip the `"[DONE]"` sentinel; otherwise `json.loads` the
payload and yield it.  The result pairs the yielded values with a flag that
is `true` exactly when a `json.JSONDecodeError` terminated the stream. -/
def decodeLines : List String → List PyVal × Bool
  | [] => ([], false)
  | line :: rest =>
    if pyStartsWith line "data: " then
      if pyStrip (line.drop "data: ".length) = "[DONE]" then decodeLines rest
      else
        match json_loads (pyStrip (line.drop "data: ".length)) with
        | Option.none => ([], true)
        | some v => ((decodeLines rest).1.cons v, (decodeLines rest).2)
    else decodeLines rest

/-- Response decoding of `_openai_request`: when the payload's `stream` key
is not truthy, the whole body is read and parsed as one JSON value (the
error flag is `true` when that parse fails); otherwise the body lines are
decoded by the streaming loop. -/
def openai_request_decode (data : Opts) (lines : List String) :
    List PyVal × Bool :=
  if pyTruthy ((data "stream").getD PyVal.none) = false then
    match json_loads (String.join lines) with
    | some v => ([v], false)
    | Option.none => ([], true)
  else decodeLines lines

/-- One output chunk `{"type": "assistant", "content": text}`. -/
structure OutputChunk where
  type : String
  content : PyVal
deriving Repr

/-- The `_map_chunk` closure of `request` on a decoded mapping: replace a
missing or falsy `choices` by `[{}]`, take the first element's `text`
(default `""`), and produce a chunk exactly when that text is truthy.
Python run-time errors on ill-typed events (`resp["choices"]` not a list,
its first element not a mapping) are returned as `Except.error`. -/
def mapChunk (resp : List (String × PyVal)) : Except String (Option OutputChunk) :=
  let choices :=
    match List.lookup "choices" resp with
    | some v => if pyTruthy v then v else PyVal.list [PyVal.dict []]
    | Option.none => PyVal.list [PyVal.dict []]
  match choices with
  | PyVal.list [] => Except.error "IndexError"
  | PyVal.list (c :: _) =>
    match c with
    | PyVal.dict fields =>
      let text := (List.lookup "text" fields).getD (PyVal.str "")
      Except.ok (if pyTruthy text then some ⟨"assistant", text⟩ else Option.none)
    | _ => Except.error "AttributeError"
  | _ => Except.error "TypeError"

/-- `_map_chunk` on an arbitrary decoded JSON value: the source's `Mapping`
type expectation, a run-time error on non-mappings. -/
def mapChunkVal (v : PyVal) : Except String (Option OutputChunk) :=
  match v with
  | PyVal.dict fields => mapChunk fields
  | _ => Except.error "TypeError"

/-- The `filter(None, map(_map_chunk, response))` pipeline of `request`
applied to the decoded events. -/
def requestChunks (events : List PyVal) : Except String (List OutputChunk) :=
  (events.mapM mapChunkVal).map (fun l => l.filterMap id)

/-- `OpenAICodexProvider.default_options_varname_{command_type}` via
`getattr` with default `""`: only the two class attributes exist. -/
def default_options_varname (command_type : String) : String :=
  if command_type = "complete" then "g:vim_ai_openai_codex_complete"
  else if command_type = "edit" then "g:vim_ai_openai_codex_edit"
  else ""

/-- The `{**raw_default_options, **raw_options}` merge of the constructor:
defaults come from `vim.eval` (an external capability, a parameter here)
unless the varname is empty, and explicit raw options win. -/
def mergedOptions (vimEval : String → Opts) (command_type : String)
    (raw_options : Opts) : Opts :=
  let config_varname := default_options_varname command_type
  let raw_default_options :=
    if config_varname = "" then (fun _ => Option.none) else vimEval config_varname
  fun k =>
    match raw_options k with
    | some v => some v
    | Option.none => raw_default_options k

/-- `OpenAICodexProvider._ensure_supported_command`. -/
def ensure_supported_command (command_type : String) : Except KnownError Unit :=
  if command_type = "complete" ∨ command_type = "edit" then Except.ok ()
  else Except.error (KnownError.capability
    "OpenAI Codex provider supports only :AI and :AIEdit commands")

/-- The provider state produced by a successful construction. -/
structure Provider where
  command_type : String
  options : Opts

/-- `OpenAICodexProvider.__init__`: merge defaults and raw options, parse
them, then check the command type.  The construction is pure — no HTTP
request is involved. -/
def provider_init (vimEval : String → Opts) (command_type : String)
    (raw_options : Opts) : Except KnownError Provider :=
  match parse_raw_options (mergedOptions vimEval command_type raw_options) with
  | Except.error e => Except.error e
  | Except.ok opts =>
    match ensure_supported_command command_type with
    | Except.error e => Except.error e
    | Except.ok _ => Except.ok ⟨command_type, opts⟩

/-- `OpenAICodexProvider.request_image`: always the capability error, with
no network access (the definition does not involve the transport). -/
def request_image (prompt : String) : Except KnownError (List PyVal) :=
  Except.error (KnownError.capability
    "OpenAI Codex provider does not support image generation")

/-- Spec, streaming decoder: the payload of one response line — absent
unless the line starts with the literal `"data: "`; the prefix and
surrounding whitespace stripped; absent when it equals the `"[DONE]"`
sentinel. -/
def extractPayload (line : String) : Option String :=
  if pyStartsWith line "data: " then
    if pyStrip (line.drop "data: ".length) = "[DONE]" then Option.none
    else some (pyStrip (line.drop "data: ".length))
  else Option.none

/-- Spec, prompt compiler (amended): the message's non-empty text-type
content parts concatenated with newline separators, surrounding whitespace
trimmed. -/
def specMessageText (m : AIMessage) : String :=
  pyStrip (String.intercalate "\n"
    (m.content.filterMap (fun c =>
      if c.type == some "text" then
        if c.text.getD "" = "" then Option.none else some (c.text.getD "")
      else Option.none)))

/-- Claim C5 as stated: all text-type content parts (the empty ones
included) concatenated with newline separators, then trimmed. -/
def claimMessageText (m : AIMessage) : String :=
  pyStrip (String.intercalate "\n"
    ((m.content.filter (fun c => c.type == some "text")).map
      (fun c => c.text.getD "")))

/-- Spec, prompt compiler: the display label of a message role
(`system→System`, `user→User`, `assistant→Assistant`, `tool→Tool`,
anything else or absent→`User`). -/
def specLabel (role : Option String) : String :=
  if role = some "system" then "System"
  else if role = some "user" then "User"
  else if role = some "assistant" then "Assistant"
  else if role = some "tool" then "Tool"
  else "User"

/-- Spec, prompt compiler: the surviving block of one message — its label
and text, absent when the text is empty. -/
def specBlock (m : AIMessage) : Option (String × String) :=
  if specMessageText m = "" then Option.none
  else some (specLabel m.role, specMessageText m)

/-- Spec, prompt compiler: the surviving blocks of a message sequence. -/
def specBlocks (messages : List AIMessage) : List (String × String) :=
  messages.filterMap specBlock

/-- Spec, prompt compiler: the rendering `"<Label>::\n<text>"` of a block. -/
def renderBlock (b : String × String) : String := b.1 ++ "::\n" ++ b.2

/-- Spec, prompt compiler (turn-completion invariant): the compiled prompt —
the rendered surviving blocks, followed by a trailing `"Assistant::"`
marker when the block list is empty or its last label is not `"Assistant"`,
joined by a blank line. -/
def specPrompt (messages : List AIMessage) : String :=
  let blocks := specBlocks messages
  String.intercalate "\n\n"
    (blocks.map renderBlock ++
      (if blocks = [] ∨ blocks.getLast?.map Prod.fst ≠ some "Assistant"
       then ["Assistant::"] else []))

/-- Spec, transport: the first comma-segment of the credential string,
trimmed. -/
def firstSegment (raw : String) : String :=
  pyStrip ((pySplitComma (pyStrip raw)).headD "")

/-- Spec, transport: the second comma-segment of the credential string,
trimmed, when one exists. -/
def secondSegment (raw : String) : Option String :=
  let elements := pySplitComma (pyStrip raw)
  if 1 < elements.length then some (pyStrip (elements.getD 1 "")) else Option.none

/-- Claim C7 as amended: the headers — the two fixed ones, plus, in bearer
mode, `Authorization: Bearer <first segment>` and, when a second segment is
present and nonempty after trimming, the organization header; in api-key
mode only the first segment under `api-key`; no authentication header in
any other mode. -/
def specHeadersAmended (auth_type : String) (raw : String) :
    List (String × String) :=
  let base := [("Content-Type", "application/json"), ("User-Agent", "VimAI")]
  if auth_type = "bearer" then
    base ++ [("Authorization", "Bearer " ++ firstSegment raw)] ++
      (match secondSegment raw with
       | some o => if o = "" then [] else [("OpenAI-Organization", o)]
       | Option.none => [])
  else if auth_type = "api-key" then base ++ [("api-key", firstSegment raw)]
  else base

/-- Claim C7 as stated for bearer mode: the second segment, if present, is
sent as the organization header (no nonemptiness condition). -/
def claimHeadersBearer (raw : String) : List (String × String) :=
  [("Content-Type", "application/json"), ("User-Agent", "VimAI")] ++
    [("Authorization", "Bearer " ++ firstSegment raw)] ++
    (match secondSegment raw with
     | some o => [("OpenAI-Organization", o)]
     | Option.none => [])

/-- Spec, response mapper: the string under a choice object's `text` key,
defaulting to the empty string when absent. -/
def specTextOf (fields : List (String × PyVal)) : String :=
  match List.lookup "text" fields with
  | some (PyVal.str s) => s
  | _ => ""

/-- Spec, response mapper: the extracted text `choices[0].text`, defaulting
to the empty string when `choices` is absent or empty or the first choice
has no text. -/
def specExtractText (resp : List (String × PyVal)) : String :=
  match List.lookup "choices" resp with
  | some (PyVal.list (PyVal.dict fields :: _)) => specTextOf fields
  | _ => ""

/-- Well-formedness of a choice object: its `text` field, when present, is
a string. -/
def textFieldWF (fields : List (String × PyVal)) : Bool :=
  match List.lookup "text" fields with
  | Option.none => true
  | some (PyVal.str _) => true
  | _ => false

/-- Well-formedness of a decoded response event as the wire protocol shapes
it: `choices`, when present, is an array; its first element, when one
exists, is an object whose `text` field, when present, is a string. -/
def eventWF (resp : List (String × PyVal)) : Bool :=
  match List.lookup "choices" resp with
  | Option.none => true
  | some (PyVal.list []) => true
  | some (PyVal.list (PyVal.dict fields :: _)) => textFieldWF fields
  | _ => false

/-- Value of an options entry after one normalization step: a non-empty
string is replaced by its conversion, anything else is left unchanged. -/
def convertedValue (conv : String → Option PyVal) : Option PyVal → Option PyVal
  | some (PyVal.str s) => if s = "" then some (PyVal.str s) else conv s
  | v => v

theorem setOpt_eq (o : Opts) (name : String) (v : PyVal) (k : String) :
    setOpt o name v k = if k = name then some v else o k := rfl

theorem convertOption_ok_other {name : String} {conv : String → Option PyVal}
    {opts opts' : Opts} (h : convertOption name conv opts = Except.ok opts')
    {k : String} (hk : k ≠ name) : opts' k = opts k := by
  unfold convertOption at h
  split at h
  · next s hs =>
    split at h
    · cases h; rfl
    · split at h
      · cases h; simp [setOpt, hk]
      · cases h
  · cases h; rfl

theorem convertOption_ok_self {name : String} {conv : String → Option PyVal}
    {opts opts' : Opts} (h : convertOption name conv opts = Except.ok opts') :
    opts' name = convertedValue conv (opts name) := by
  unfold convertOption at h
  split at h
  · next s hs =>
    split at h
    · next hse =>
      cases h; simp [convertedValue, hs, hse]
    · next hse =>
      split at h
      · next v hv =>
        cases h; simp [convertedValue, hs, hse, setOpt, hv]
      · cases h
  · next hne =>
    cases h
    unfold convertedValue
    split
    · next s hs => exact absurd hs (hne s)
    · rfl

theorem convertOption_error {name : String} {conv : String → Option PyVal}
    {opts : Opts} {e : KnownError}
    (h : convertOption name conv opts = Except.error e) :
    ∃ s, opts name = some (PyVal.str s) ∧ s ≠ "" ∧ conv s = Option.none ∧
      e = KnownError.config name s := by
  unfold convertOption at h
  split at h
  · next s hs =>
    split at h
    · cases h
    · next hse =>
      split at h
      · cases h
      · next hv =>
        cases h
        exact ⟨s, hs, hse, hv, rfl⟩
  · cases h

theorem convertOption_fails {name : String} {conv : String → Option PyVal}
    {opts : Opts} {s : String} (hs : opts name = some (PyVal.str s))
    (hse : s ≠ "") (hv : conv s = Option.none) :
    convertOption name conv opts = Except.error (KnownError.config name s) := by
  unfold convertOption
  rw [hs]
  simp [hse, hv]

theorem foldConv_ok_not_mem :
    ∀ (L : List (String × (String → Option PyVal))) (o res : Opts),
      List.foldlM (fun o c => convertOption c.1 c.2 o) o L = Except.ok res →
      ∀ k, (∀ p ∈ L, p.1 ≠ k) → res k = o k := by
  intro L
  induction L with
  | nil => intro o res h k _; cases h; rfl
  | cons c T ih =>
    intro o res h k hk
    rw [List.foldlM_cons] at h
    cases hstep : convertOption c.1 c.2 o with
    | error e => rw [hstep] at h; cases h
    | ok o' =>
      rw [hstep] at h
      have hres := ih o' res h k (fun p hp => hk p (List.mem_cons_of_mem _ hp))
      rw [hres]
      exact convertOption_ok_other hstep (fun hkc => hk c (List.mem_cons_self _ _) hkc.symm)

theorem foldConv_ok_mem :
    ∀ (L : List (String × (String → Option PyVal))) (o res : Opts),
      List.foldlM (fun o c => convertOption c.1 c.2 o) o L = Except.ok res →
      (L.map Prod.fst).Nodup →
      ∀ k conv, (k, conv) ∈ L → res k = convertedValue conv (o k) := by
  intro L
  induction L with
  | nil => intro o res _ _ k conv hmem; cases hmem
  | cons c T ih =>
    intro o res h hnd k conv hmem
    rw [List.map_cons, List.nodup_cons] at hnd
    rw [List.foldlM_cons] at h
    cases hstep : convertOption c.1 c.2 o with
    | error e => rw [hstep] at h; cases h
    | ok o' =>
      rw [hstep] at h
      cases hmem with
      | head =>
        have hres := foldConv_ok_not_mem T o' res h k
          (fun p hp hpk => by
            have h1 : p.1 ∈ List.map Prod.fst T := List.mem_map_of_mem Prod.fst hp
            exact hnd.1 (hpk ▸ h1))
        rw [hres, convertOption_ok_self hstep]
      | tail _ hmem' =>
        have hkc : k ≠ c.1 := by
          intro hkc
          exact hnd.1 (by rw [← hkc]; exact List.mem_map_of_mem Prod.fst hmem')
        rw [ih o' res h hnd.2 k conv hmem', convertOption_ok_other hstep hkc]

theorem foldConv_error :
    ∀ (L : List (String × (String → Option PyVal))) (o : Opts) (e : KnownError),
      List.foldlM (fun o c => convertOption c.1 c.2 o) o L = Except.error e →
      (L.map Prod.fst).Nodup →
      ∃ k conv s, (k, conv) ∈ L ∧ o k = some (PyVal.str s) ∧ s ≠ "" ∧
        conv s = Option.none ∧ e = KnownError.config k s := by
  intro L
  induction L with
  | nil => intro o e h _; cases h
  | cons c T ih =>
    intro o e h hnd
    rw [List.map_cons, List.nodup_cons] at hnd
    rw [List.foldlM_cons] at h
    cases hstep : convertOption c.1 c.2 o with
    | error e' =>
      rw [hstep] at h
      cases h
      obtain ⟨s, hs, hse, hv, he⟩ := convertOption_error hstep
      exact ⟨c.1, c.2, s, List.mem_cons_self _ _, hs, hse, hv, he⟩
    | ok o' =>
      rw [hstep] at h
      obtain ⟨k, conv, s, hmem, hs, hse, hv, he⟩ := ih o' e h hnd.2
      have hkc : k ≠ c.1 := by
        intro hkc
        exact hnd.1 (by rw [← hkc]; exact List.mem_map_of_mem Prod.fst hmem)
      exact ⟨k, conv, s, List.mem_cons_of_mem _ hmem,
        (convertOption_ok_other hstep hkc) ▸ hs, hse, hv, he⟩

theorem foldConv_fails :
    ∀ (L : List (String × (String → Option PyVal))) (o : Opts),
      (∃ k conv s, (k, conv) ∈ L ∧ o k = some (PyVal.str s) ∧ s ≠ "" ∧
        conv s = Option.none) →
      (L.map Prod.fst).Nodup →
      ∀ res, List.foldlM (fun o c => convertOption c.1 c.2 o) o L ≠ Except.ok res := by
  intro L
  induction L with
  | nil => intro o ⟨k, conv, s, hmem, _⟩ _ res _; cases hmem
  | cons c T ih =>
    intro o ⟨k, conv, s, hmem, hs, hse, hv⟩ hnd res h
    rw [List.map_cons, List.nodup_cons] at hnd
    rw [List.foldlM_cons] at h
    cases hmem with
    | head =>
      rw [convertOption_fails hs hse hv] at h
      cases h
    | tail _ hmem' =>
      cases hstep : convertOption c.1 c.2 o with
      | error e => rw [hstep] at h; cases h
      | ok o' =>
        rw [hstep] at h
        have hkc : k ≠ c.1 := by
          intro hkc
          exact hnd.1 (by rw [← hkc]; exact List.mem_map_of_mem Prod.fst hmem')
        exact ih o' ⟨k, conv, s, hmem',
          (convertOption_ok_other hstep hkc) ▸ hs, hse, hv⟩ hnd.2 res h

theorem startsWithChars_self_append (p rest : List Char) :
    startsWithChars p (p ++ rest) = true := by
  induction p with
  | nil => rfl
  | cons c cs ih => simp [startsWithChars, ih]

theorem textChunks_eq (l : List ContentPart) :
    l.filterMap (fun c =>
      if c.type == some "text" then
        if c.text.getD "" = "" then Option.none else some (c.text.getD "")
      else Option.none) =
    ((l.filter (fun c => c.type == some "text")).map
      (fun c => c.text.getD "")).filter (fun s => s != "") := by
  induction l with
  | nil => rfl
  | cons c cs ih =>
    by_cases ht : (c.type == some "text") = true
    · by_cases hx : c.text.getD "" = ""
      · rw [List.filterMap_cons_none (by simp [ht, hx]),
          List.filter_cons_of_pos (p := fun c : ContentPart => c.type == some "text") ht,
          List.map_cons,
          List.filter_cons_of_neg (p := fun s : String => s != "") (by simp [hx])]
        exact ih
      · rw [List.filterMap_cons_some (b := c.text.getD "") (by simp [ht, hx]),
          List.filter_cons_of_pos (p := fun c : ContentPart => c.type == some "text") ht,
          List.map_cons,
          List.filter_cons_of_pos (p := fun s : String => s != "") (by simp [hx])]
        rw [ih]
    · rw [List.filterMap_cons_none (by simp [ht]),
        List.filter_cons_of_neg (p := fun c : ContentPart => c.type == some "text") (by simp [ht])]
      exact ih

theorem specMessageText_eq (m : AIMessage) :
    specMessageText m = messageText m := by
  unfold specMessageText messageText
  rw [textChunks_eq]

theorem specLabel_eq (ro : Option String) :
    specLabel ro = roleLabel (ro.getD "user") := by
  cases ro with
  | none => rfl
  | some r =>
    unfold specLabel roleLabel
    simp only [Option.getD_some, Option.some.injEq]

theorem roleLabel_mem (r : String) :
    roleLabel r ∈ (["System", "User", "Assistant", "Tool"] : List String) := by
  unfold roleLabel
  split_ifs <;> simp

theorem specBlocks_cons_none {m : AIMessage} {ms : List AIMessage}
    (hb : specBlock m = Option.none) : specBlocks (m :: ms) = specBlocks ms := by
  unfold specBlocks
  rw [List.filterMap_cons_none hb]

theorem specBlocks_cons_some {m : AIMessage} {ms : List AIMessage}
    {b : String × String} (hb : specBlock m = some b) :
    specBlocks (m :: ms) = b :: specBlocks ms := by
  unfold specBlocks
  rw [List.filterMap_cons_some hb]

theorem specBlock_of_empty {m : AIMessage} (h : messageText m = "") :
    specBlock m = Option.none := by
  unfold specBlock
  rw [specMessageText_eq, h]
  simp

theorem specBlock_of_nonempty {m : AIMessage} (h : messageText m ≠ "") :
    specBlock m = some (specLabel m.role, messageText m) := by
  unfold specBlock
  rw [specMessageText_eq]
  simp [h]

theorem promptParts_aux (messages : List AIMessage) :
    ∀ acc : List String,
      messages.foldl
        (fun acc m =>
          let text := messageText m
          if text = "" then acc
          else acc ++ [roleLabel ((m.role).getD "user") ++ "::\n" ++ text])
        acc = acc ++ (specBlocks messages).map renderBlock := by
  induction messages with
  | nil => intro acc; simp [specBlocks]
  | cons m ms ih =>
    intro acc
    rw [List.foldl_cons]
    by_cases h : messageText m = ""
    · rw [specBlocks_cons_none (specBlock_of_empty h)]
      simp only [if_pos h]
      exact ih acc
    · rw [specBlocks_cons_some (specBlock_of_nonempty h)]
      simp only [if_neg h]
      rw [ih (acc ++ [roleLabel ((m.role).getD "user") ++ "::\n" ++ messageText m])]
      rw [List.map_cons]
      rw [List.append_assoc]
      congr 1
      unfold renderBlock
      rw [specLabel_eq]
      rfl

theorem promptParts_eq_blocks (messages : List AIMessage) :
    promptParts messages = (specBlocks messages).map renderBlock := by
  unfold promptParts
  rw [promptParts_aux messages []]
  rfl

theorem render_startsWith (l t : String)
    (hl : l ∈ (["System", "User", "Assistant", "Tool"] : List String)) :
    pyStartsWith (l ++ "::\n" ++ t) "Assistant::" = decide (l = "Assistant") := by
  have hUser : ∀ s : String, ("User" ++ "::\n" ++ s).data =
      'U' :: ("ser::\n".data ++ s.data) := by
    intro s
    rw [String.data_append, String.data_append]
    rfl
  have hSystem : ∀ s : String, ("System" ++ "::\n" ++ s).data =
      'S' :: ("ystem::\n".data ++ s.data) := by
    intro s
    rw [String.data_append, String.data_append]
    rfl
  have hTool : ∀ s : String, ("Tool" ++ "::\n" ++ s).data =
      'T' :: ("ool::\n".data ++ s.data) := by
    intro s
    rw [String.data_append, String.data_append]
    rfl
  have hAssistant : ∀ s : String, ("Assistant" ++ "::\n" ++ s).data =
      "Assistant::".data ++ ('\n' :: s.data) := by
    intro s
    rw [String.data_append, String.data_append]
    rfl
  fin_cases hl
  · unfold pyStartsWith
    rw [hSystem t]
    rw [show ("Assistant::".data) = 'A' :: "ssistant::".data from rfl]
    rw [show startsWithChars ('A' :: "ssistant::".data) ('S' :: ("ystem::\n".data ++ t.data)) =
      (('A' == 'S') && startsWithChars "ssistant::".data ("ystem::\n".data ++ t.data)) from rfl]
    rw [show ('A' == 'S') = false from rfl]
    simp
  · unfold pyStartsWith
    rw [hUser t]
    rw [show ("Assistant::".data) = 'A' :: "ssistant::".data from rfl]
    rw [show startsWithChars ('A' :: "ssistant::".data) ('U' :: ("ser::\n".data ++ t.data)) =
      (('A' == 'U') && startsWithChars "ssistant::".data ("ser::\n".data ++ t.data)) from rfl]
    rw [show ('A' == 'U') = false from rfl]
    simp
  · unfold pyStartsWith
    rw [hAssistant t]
    rw [startsWithChars_self_append]
    simp
  · unfold pyStartsWith
    rw [hTool t]
    rw [show ("Assistant::".data) = 'A' :: "ssistant::".data from rfl]
    rw [show startsWithChars ('A' :: "ssistant::".data) ('T' :: ("ool::\n".data ++ t.data)) =
      (('A' == 'T') && startsWithChars "ssistant::".data ("ool::\n".data ++ t.data)) from rfl]
    rw [show ('A' == 'T') = false from rfl]
    simp

theorem specBlocks_labels {messages : List AIMessage} {b : String × String}
    (hb : b ∈ specBlocks messages) :
    b.1 ∈ (["System", "User", "Assistant", "Tool"] : List String) := by
  unfold specBlocks at hb
  obtain ⟨m, _, hm⟩ := List.mem_filterMap.mp hb
  unfold specBlock at hm
  split at hm
  · cases hm
  · cases hm
    rw [specLabel_eq]
    exact roleLabel_mem _

theorem finalParts_eq (messages : List AIMessage) :
    finalParts messages = (specBlocks messages).map renderBlock ++
      (if specBlocks messages = [] ∨
          (specBlocks messages).getLast?.map Prod.fst ≠ some "Assistant"
       then ["Assistant::"] else []) := by
  unfold finalParts
  rw [promptParts_eq_blocks]
  simp only [List.getLast?_map]
  cases hb : (specBlocks messages).getLast? with
  | none =>
    have hnil : specBlocks messages = [] := List.getLast?_eq_none_iff.mp hb
    rw [hnil]
    simp
  | some b =>
    have hne : specBlocks messages ≠ [] := by
      intro heq
      rw [heq] at hb
      cases hb
    have hlab : b.1 ∈ (["System", "User", "Assistant", "Tool"] : List String) :=
      specBlocks_labels (List.mem_of_mem_getLast? hb)
    have hrender : pyStartsWith (renderBlock b) "Assistant::" = decide (b.1 = "Assistant") := by
      unfold renderBlock
      exact render_startsWith b.1 b.2 hlab
    simp only [Option.map_some']
    rw [hrender]
    by_cases hA : b.1 = "Assistant"
    · rw [if_pos (by rw [hA]; rfl)]
      rw [if_neg (by simp [hne, hA])]
      simp
    · rw [if_neg (by simp [hA])]
      rw [if_pos (by simp [hA])]

theorem decodeLines_eq (lines : List String) :
    decodeLines lines =
      (((lines.filterMap extractPayload).takeWhile
          (fun p => (json_loads p).isSome)).filterMap json_loads,
       !(lines.filterMap extractPayload).all (fun p => (json_loads p).isSome)) := by
  induction lines with
  | nil => rfl
  | cons line rest ih =>
    rw [decodeLines]
    by_cases hsw : pyStartsWith line "data: " = true
    · by_cases hd : pyStrip (line.drop "data: ".length) = "[DONE]"
      · have hep : extractPayload line = Option.none := by
          unfold extractPayload
          rw [if_pos hsw, if_pos hd]
        rw [if_pos hsw, if_pos hd, List.filterMap_cons_none hep]
        exact ih
      · have hep : extractPayload line = some (pyStrip (line.drop "data: ".length)) := by
          unfold extractPayload
          rw [if_pos hsw, if_neg hd]
        rw [if_pos hsw, if_neg hd, List.filterMap_cons_some hep]
        cases hj : json_loads (pyStrip (line.drop "data: ".length)) with
        | none =>
          rw [List.takeWhile_cons, List.all_cons, hj]
          simp
        | some v =>
          rw [List.takeWhile_cons, List.all_cons, hj]
          simp only [Option.isSome_some, eq_self_iff_true, if_true, Bool.true_and]
          rw [List.filterMap_cons_some hj, ih]
    · have hep : extractPayload line = Option.none := by
        unfold extractPayload
        rw [if_neg hsw]
      rw [if_neg hsw, List.filterMap_cons_none hep]
      exact ih

theorem buildEntry_fst {o : Opts} {key : String} {p : String × PyVal}
    (h : buildEntry o key = some p) : p.1 = key := by
  unfold buildEntry at h
  split at h
  · cases h
  · split at h
    · cases h
    · split at h
      · cases h
      · cases h; rfl

theorem lookup_buildEntry_not_mem (o : Opts) :
    ∀ (keys : List String) (k : String), k ∉ keys →
      List.lookup k (keys.filterMap (buildEntry o)) = Option.none := by
  intro keys
  induction keys with
  | nil => intro k _; rfl
  | cons k0 ks ih =>
    intro k hk
    have hk0 : k ≠ k0 := fun h => hk (h ▸ List.mem_cons_self _ _)
    have hks : k ∉ ks := fun h => hk (List.mem_cons_of_mem _ h)
    cases hb : buildEntry o k0 with
    | none => rw [List.filterMap_cons_none hb]; exact ih k hks
    | some p =>
      rw [List.filterMap_cons_some hb]
      obtain ⟨pk, pv⟩ := p
      have hp : pk = k0 := buildEntry_fst hb
      subst hp
      rw [show List.lookup k ((pk, pv) :: ks.filterMap (buildEntry o)) =
        List.lookup k (ks.filterMap (buildEntry o)) by
          simp [List.lookup, beq_false_of_ne hk0]]
      exact ih k hks

theorem lookup_buildEntry_mem (o : Opts) :
    ∀ (keys : List String), keys.Nodup → ∀ k, k ∈ keys →
      List.lookup k (keys.filterMap (buildEntry o)) = (buildEntry o k).map Prod.snd := by
  intro keys
  induction keys with
  | nil => intro _ k hk; cases hk
  | cons k0 ks ih =>
    intro hnd k hk
    rw [List.nodup_cons] at hnd
    cases List.mem_cons.mp hk with
    | inl heq =>
      subst heq
      cases hb : buildEntry o k with
      | none =>
        rw [List.filterMap_cons_none hb]
        rw [lookup_buildEntry_not_mem o ks k hnd.1]
        rfl
      | some p =>
        rw [List.filterMap_cons_some hb]
        obtain ⟨pk, pv⟩ := p
        have hp : pk = k := buildEntry_fst hb
        subst hp
        simp [List.lookup]
    | inr hmem =>
      have hk0 : k ≠ k0 := by
        intro h
        exact hnd.1 (h ▸ hmem)
      cases hb : buildEntry o k0 with
      | none =>
        rw [List.filterMap_cons_none hb]
        exact ih hnd.2 k hmem
      | some p =>
        rw [List.filterMap_cons_some hb]
        obtain ⟨pk, pv⟩ := p
        have hp : pk = k0 := buildEntry_fst hb
        subst hp
        rw [show List.lookup k ((pk, pv) :: ks.filterMap (buildEntry o)) =
          List.lookup k (ks.filterMap (buildEntry o)) by
            simp [List.lookup, beq_false_of_ne hk0]]
        exact ih hnd.2 k hmem

theorem buildEntry_map_snd_iff (o : Opts) (k : String) (v : PyVal) :
    (buildEntry o k).map Prod.snd = some v ↔
      (o k = some v ∧ isEmptyOrNone v = false ∧
        (count_like k = true → eqZero v = false)) := by
  unfold buildEntry
  split
  · next ho => simp [ho]
  · next value ho =>
    rw [ho]
    by_cases hs : isEmptyOrNone value = true
    · rw [if_pos hs]
      simp only [Option.map_none']
      constructor
      · intro h; cases h
      · rintro ⟨hv, hemp, _⟩
        cases hv
        rw [hs] at hemp
        cases hemp
    · rw [if_neg hs]
      by_cases hz : (count_like k && eqZero value) = true
      · rw [if_pos hz]
        simp only [Option.map_none']
        constructor
        · intro h; cases h
        · rintro ⟨hv, _, hcl⟩
          cases hv
          obtain ⟨hc, he⟩ := Bool.and_eq_true_iff.mp hz
          rw [hcl hc] at he
          cases he
      · rw [if_neg hz]
        simp only [Option.map_some']
        constructor
        · intro h
          cases h
          refine ⟨rfl, Bool.not_eq_true _ ▸ hs, fun hc => ?_⟩
          rcases Bool.and_eq_false_iff.mp (Bool.not_eq_true _ ▸ hz) with h1 | h2
          · rw [hc] at h1; cases h1
          · exact h2
        · rintro ⟨hv, _, _⟩
          cases hv
          rfl

theorem chunkStep (fields : List (String × PyVal))
    (h : textFieldWF fields = true) :
    (Except.ok (ε := String)
      (if pyTruthy ((List.lookup "text" fields).getD (PyVal.str "")) = true
       then some (⟨"assistant", (List.lookup "text" fields).getD (PyVal.str "")⟩ : OutputChunk)
       else Option.none)) =
    Except.ok (if specTextOf fields = "" then Option.none
      else some ⟨"assistant", PyVal.str (specTextOf fields)⟩) := by
  unfold textFieldWF at h
  unfold specTextOf
  cases ht : List.lookup "text" fields with
  | none => rfl
  | some tv =>
    rw [ht] at h
    cases tv with
    | none => exact Bool.noConfusion h
    | bool b => exact Bool.noConfusion h
    | int n => exact Bool.noConfusion h
    | float q => exact Bool.noConfusion h
    | list l2 => exact Bool.noConfusion h
    | dict l2 => exact Bool.noConfusion h
    | str s =>
      by_cases hs : s = ""
      · subst hs; rfl
      · simp only [pyTruthy, Option.getD_some, beq_false_of_ne hs,
          Bool.not_false, if_pos rfl, if_neg hs, if_true]

theorem mapChunk_eq (resp : List (String × PyVal)) (h : eventWF resp = true) :
    mapChunk resp = Except.ok
      (if specExtractText resp = "" then Option.none
       else some ⟨"assistant", PyVal.str (specExtractText resp)⟩) := by
  unfold eventWF at h
  cases hc : List.lookup "choices" resp with
  | none =>
    unfold mapChunk specExtractText
    rw [hc]
    exact rfl
  | some v =>
    rw [hc] at h
    cases v with
    | none => exact Bool.noConfusion h
    | bool b => exact Bool.noConfusion h
    | int n => exact Bool.noConfusion h
    | float q => exact Bool.noConfusion h
    | str s => exact Bool.noConfusion h
    | dict l => exact Bool.noConfusion h
    | list l =>
      cases l with
      | nil =>
        unfold mapChunk specExtractText
        rw [hc]
        exact rfl
      | cons c cl =>
        cases c with
        | none => exact Bool.noConfusion h
        | bool b => exact Bool.noConfusion h
        | int n => exact Bool.noConfusion h
        | float q => exact Bool.noConfusion h
        | str s => exact Bool.noConfusion h
        | list l2 => exact Bool.noConfusion h
        | dict fields =>
          unfold mapChunk specExtractText
          rw [hc]
          exact chunkStep fields h

theorem build_headers_eq (auth_type raw : String) :
    build_headers auth_type raw = specHeadersAmended auth_type raw := by
  unfold build_headers specHeadersAmended
  by_cases hb : auth_type = "bearer"
  · rw [if_pos hb, if_pos hb]
    exact rfl
  · rw [if_neg hb, if_neg hb]
    by_cases ha : auth_type = "api-key"
    · rw [if_pos ha, if_pos ha]
      exact rfl
    · rw [if_neg ha, if_neg ha]

/-- Claim C1: for every streaming response body (payload's `stream` flag
set), the decoder yields, in order, exactly the JSON parse of each line
that starts with the literal prefix `"data: "` after stripping that prefix
and surrounding whitespace, except lines whose stripped payload equals
`"[DONE]"`; lines without the prefix and `[DONE]` sentinels yield nothing,
and a data line whose payload is malformed JSON raises a fatal decode error
that terminates the sequence rather than being skipped: the yielded values
are the parses of the extracted payloads up to the first unparsable one,
and the error flag is set exactly when some extracted payload fails to
parse. -/
theorem C1_streaming_decoder (data : Opts) (lines : List String)
    (h : pyTruthy ((data "stream").getD PyVal.none) = true) :
    openai_request_decode data lines =
      (((lines.filterMap extractPayload).takeWhile
          (fun p => (json_loads p).isSome)).filterMap json_loads,
       !(lines.filterMap extractPayload).all (fun p => (json_loads p).isSome)) := by
  unfold openai_request_decode
  rw [if_neg (by rw [h]; exact fun hf => Bool.noConfusion hf)]
  exact decodeLines_eq lines

/-- Options of the C1 witness: a payload whose `stream` flag is set. -/
def c1Data : Opts := fun k =>
  if k = "stream" then some (PyVal.bool true) else Option.none

/-- Witness for C1: on a concrete three-line stream (one data line, the
`[DONE]` sentinel, one non-data line) the decoder yields exactly the parse
of the data line and no error. -/
theorem C1_streaming_decoder_witness :
    openai_request_decode c1Data ["data: [1]\n", "data: [DONE]\n", "ignored\n"] =
      ([PyVal.list [PyVal.int 1]], false) := by
  rw [C1_streaming_decoder c1Data ["data: [1]\n", "data: [DONE]\n", "ignored\n"] rfl]
  rfl

/-- Claim C2: for every message sequence, the compiled prompt ends with a
trailing `"Assistant::"` block with empty body if and only if the sequence
of surviving (non-empty-text) blocks is empty or its last block's label is
not `"Assistant"`; when the last surviving block is already an Assistant
block, no extra trailing marker is appended.  Stated on the part list the
compiler joins with blank lines. -/
theorem C2_trailing_marker (messages : List AIMessage) :
    messages_to_prompt messages = String.intercalate "\n\n" (finalParts messages) ∧
    finalParts messages = promptParts messages ++
      (if specBlocks messages = [] ∨
          (specBlocks messages).getLast?.map Prod.fst ≠ some "Assistant"
       then ["Assistant::"] else []) := by
  refine ⟨rfl, ?_⟩
  rw [finalParts_eq, promptParts_eq_blocks]

/-- Claim C3: for every normalized options mapping, the request builder
includes an allowlisted tuning key in the payload if and only if the key is
present in options, its value does not equal (under Python `==`) the empty
string or `None`, and — only for the count-like keys `max_tokens`,
`logprobs`, `best_of` and `n` — its value does not equal the integer zero
(under Python `==`, which the integer zero, the float zero and `False`
satisfy); in particular a count-like key set to `0` is omitted entirely,
the same key set to a positive integer is included, and a non-count-like
numeric key such as `temperature` keeps the value `0`. -/
theorem C3_allowlist_inclusion (options : Opts) (m : PyVal)
    (hm : options "model" = some m) (k : String) (hk : k ∈ option_keys)
    (result : List (String × PyVal))
    (hr : make_codex_options options = some result) (v : PyVal) :
    List.lookup k result = some v ↔
      (options k = some v ∧ isEmptyOrNone v = false ∧
        (count_like k = true → eqZero v = false)) := by
  unfold make_codex_options at hr
  rw [hm] at hr
  cases hr
  have hkm : k ≠ "model" := by
    intro h
    subst h
    revert hk
    decide
  rw [show List.lookup k (("model", m) :: option_keys.filterMap (buildEntry options)) =
    List.lookup k (option_keys.filterMap (buildEntry options)) by
      simp [List.lookup, beq_false_of_ne hkm]]
  rw [lookup_buildEntry_mem options option_keys (by decide) k hk]
  exact buildEntry_map_snd_iff options k v

/-- Options of the C3 witness: `temperature` set to the float zero and
`max_tokens` set to the integer zero. -/
def c3Opts : Opts := fun k =>
  if k = "model" then some (PyVal.str "code-davinci-002")
  else if k = "temperature" then some (PyVal.float 0)
  else if k = "max_tokens" then some (PyVal.int 0)
  else Option.none

/-- Payload built from the C3 witness options. -/
def c3Result : List (String × PyVal) :=
  [("model", PyVal.str "code-davinci-002"), ("temperature", PyVal.float 0)]

/-- Witness for C3: on the concrete options, `temperature` keeps the value
zero while the count-like `max_tokens` set to zero is omitted entirely. -/
theorem C3_allowlist_inclusion_witness :
    List.lookup "temperature" c3Result = some (PyVal.float 0) ∧
    List.lookup "max_tokens" c3Result = Option.none := by
  constructor
  · exact (C3_allowlist_inclusion c3Opts (PyVal.str "code-davinci-002") rfl
      "temperature" (by decide) c3Result rfl (PyVal.float 0)).mpr
      ⟨rfl, rfl, fun hc => Bool.noConfusion hc⟩
  · cases hl : List.lookup "max_tokens" c3Result with
    | none => rfl
    | some v =>
      obtain ⟨hv, _, hz⟩ := (C3_allowlist_inclusion c3Opts
        (PyVal.str "code-davinci-002") rfl "max_tokens" (by decide)
        c3Result rfl v).mp hl
      have hv' : (some (PyVal.int 0) : Option PyVal) = some v := hv
      cases hv'
      exact Bool.noConfusion (hz rfl)

/-- Message of the C5 counterexample: three text parts `"a"`, `""`, `"b"`. -/
def c5Message : AIMessage :=
  ⟨some "user", [⟨some "text", some "a"⟩, ⟨some "text", some ""⟩,
    ⟨some "text", some "b"⟩]⟩

/-- Counterexample to C5 as stated: when a text-type content part is the
empty string, joining all text parts with newline separators would give
`"a\n\nb"`, but the compiler drops empty chunks before joining and emits
`"a\nb"`, so the emitted block differs from the claimed one. -/
theorem C5_counterexample :
    claimMessageText c5Message = "a\n\nb" ∧
    messageText c5Message = "a\nb" ∧
    promptParts [c5Message] ≠
      [specLabel (some "user") ++ "::\n" ++ claimMessageText c5Message] ∧
    messages_to_prompt [c5Message] = "User::\na\nb\n\nAssistant::" := by
  refine ⟨rfl, rfl, by decide, rfl⟩

/-- Claim C5 as amended: for every message, the prompt compiler
concatenates all of its non-empty text-type content parts with newline
separators, trims surrounding whitespace, skips the message entirely if the
resulting text is empty, maps its role through the label table
(`system→"System"`, `user→"User"`, `assistant→"Assistant"`, `tool→"Tool"`,
anything else or absent→`"User"`), and emits the block `"<Label>::\n<text>"`,
with surviving blocks joined by a blank line (after the compiler's trailing
`"Assistant::"` marker rule). -/
theorem C5_compiler_amended (messages : List AIMessage) :
    messages_to_prompt messages = specPrompt messages := by
  unfold messages_to_prompt specPrompt
  rw [finalParts_eq]

/-- Claim C4: for every raw options mapping, the normalizer coerces each
recognized key's value to its target type exactly when the value is a
non-empty string, leaves the value unchanged when it is not a string or is
the empty string, and raises a configuration error naming the offending key
and raw value exactly when coercion fails. -/
theorem C4_normalizer :
    (∀ (opts res : Opts) (k : String) (conv : String → Option PyVal),
        parse_raw_options opts = Except.ok res → (k, conv) ∈ conversions →
        res k = convertedValue conv (opts k)) ∧
    (∀ (opts : Opts) (e : KnownError),
        parse_raw_options opts = Except.error e →
        ∃ k conv s, (k, conv) ∈ conversions ∧ opts k = some (PyVal.str s) ∧
          s ≠ "" ∧ conv s = Option.none ∧ e = KnownError.config k s) ∧
    (∀ opts : Opts,
        (∃ k conv s, (k, conv) ∈ conversions ∧ opts k = some (PyVal.str s) ∧
          s ≠ "" ∧ conv s = Option.none) →
        ∀ res, parse_raw_options opts ≠ Except.ok res) := by
  refine ⟨?_, ?_, ?_⟩
  · intro opts res k conv hres hmem
    exact foldConv_ok_mem conversions opts res hres (by decide) k conv hmem
  · intro opts e herr
    exact foldConv_error conversions opts e herr (by decide)
  · intro opts hex res hres
    exact foldConv_fails conversions opts hex (by decide) res hres

/-- Options of the C4 witness: `max_tokens` given as the string `"256"`. -/
def c4Opts : Opts := fun k =>
  if k = "max_tokens" then some (PyVal.str "256") else Option.none

/-- Witness for C4: normalizing `{"max_tokens": "256"}` yields the integer
`256` under `max_tokens`. -/
theorem C4_normalizer_witness :
    (parse_raw_options c4Opts).map (fun res => res "max_tokens") =
      Except.ok (some (PyVal.int 256)) := by
  have h := C4_normalizer.1 c4Opts (setOpt c4Opts "max_tokens" (PyVal.int 256))
    "max_tokens" convInt rfl
    (List.Mem.tail _ (List.Mem.tail _ (List.Mem.head _)))
  show Except.ok ((setOpt c4Opts "max_tokens" (PyVal.int 256)) "max_tokens") =
    Except.ok (some (PyVal.int 256))
  rw [h]
  rfl

/-- Claim C6: for every well-formed decoded response event, the mapper
extracts `choices[0].text` — treating an absent or empty choices array as
an empty object whose text defaults to the empty string — and produces
exactly one output chunk `{type: "assistant", content: <text>}` if and only
if that text is non-empty; events with empty or missing text produce no
chunk. -/
theorem C6_response_mapper (resp : List (String × PyVal))
    (h : eventWF resp = true) :
    mapChunk resp = Except.ok
      (if specExtractText resp = "" then Option.none
       else some ⟨"assistant", PyVal.str (specExtractText resp)⟩) :=
  mapChunk_eq resp h

/-- Event of the C6 witness: one choice carrying the text `"Hi"`. -/
def c6Event : List (String × PyVal) :=
  [("choices", PyVal.list [PyVal.dict [("text", PyVal.str "Hi")]])]

/-- Witness for C6: the concrete event with text `"Hi"` produces exactly
one assistant chunk carrying `"Hi"`. -/
theorem C6_response_mapper_witness :
    mapChunk c6Event = Except.ok (some ⟨"assistant", PyVal.str "Hi"⟩) := by
  rw [C6_response_mapper c6Event rfl]
  rfl

/-- Counterexample to C7 as stated: for the credential string `"key,"` the
second comma-segment is present (the empty string), yet no organization
header is sent, because the source guards the header behind the truthiness
of the stripped segment. -/
theorem C7_counterexample :
    secondSegment "key," = some "" ∧
    build_headers "bearer" "key," ≠ claimHeadersBearer "key," ∧
    List.lookup "OpenAI-Organization" (build_headers "bearer" "key,") =
      Option.none := by
  refine ⟨rfl, by decide, rfl⟩

/-- Claim C7 as amended: for every transport request, the authentication
headers are determined by the auth mode: in mode `"bearer"` the retrieved
credential string is split on comma, the first segment (trimmed) is sent as
`Authorization: Bearer <key>` and the second segment, if present and
nonempty after trimming, is sent as the organization header; in mode
`"api-key"` only the first comma-segment is sent as a header named
`api-key`; any other mode sends no authentication header. -/
theorem C7_auth_headers_amended (auth_type raw : String) :
    build_headers auth_type raw = specHeadersAmended auth_type raw :=
  build_headers_eq auth_type raw

/-- Claim C8: for every unsupported operation the provider raises a
capability error with no network access: constructing the provider with any
command type outside `complete`/`edit` never succeeds and, whenever the
merged options parse, fails with the capability error (the construction is
pure, before any HTTP call), and `request_image` always fails immediately
(its definition involves no transport at all). -/
theorem C8_capability_errors :
    (∀ (vimEval : String → Opts) (ct : String) (raw : Opts),
        ct ≠ "complete" → ct ≠ "edit" →
        (∀ p, provider_init vimEval ct raw ≠ Except.ok p) ∧
        (∀ opts, parse_raw_options (mergedOptions vimEval ct raw) = Except.ok opts →
          provider_init vimEval ct raw = Except.error (KnownError.capability
            "OpenAI Codex provider supports only :AI and :AIEdit commands"))) ∧
    (∀ prompt : String, request_image prompt = Except.error (KnownError.capability
        "OpenAI Codex provider does not support image generation")) := by
  constructor
  · intro vimEval ct raw h1 h2
    have hens : ensure_supported_command ct = Except.error (KnownError.capability
        "OpenAI Codex provider supports only :AI and :AIEdit commands") := by
      unfold ensure_supported_command
      rw [if_neg]
      rintro (h | h)
      · exact h1 h
      · exact h2 h
    constructor
    · intro p hp
      unfold provider_init at hp
      split at hp
      · cases hp
      · rw [hens] at hp
        cases hp
    · intro opts hopts
      unfold provider_init
      rw [hopts, hens]
  · intro prompt
    rfl

/-- Host-configuration capability of the C8 witness: no defaults. -/
def c8VimEval : String → Opts := fun _ => fun _ => Option.none

/-- Raw options of the C8 witness: empty. -/
def c8Raw : Opts := fun _ => Option.none

/-- Witness for C8: constructing with command type `"chat"` fails with the
capability error, and a concrete image request fails with the capability
error. -/
theorem C8_capability_errors_witness :
    provider_init c8VimEval "chat" c8Raw = Except.error (KnownError.capability
      "OpenAI Codex provider supports only :AI and :AIEdit commands") ∧
    request_image "draw a cat" = Except.error (KnownError.capability
      "OpenAI Codex provider does not support image generation") :=
  ⟨(C8_capability_errors.1 c8VimEval "chat" c8Raw (by decide) (by decide)).2
      (mergedOptions c8VimEval "chat" c8Raw) rfl,
    C8_capability_errors.2 "draw a cat"⟩

/-- Claim C9: for every request whose payload does not have the `stream`
flag set, the decoder reads the entire response body, parses it as one JSON
value, and yields it as the sole element of the output sequence before
terminating; consequently the non-streaming body
`{"choices":[{"text":"Hello there"}]}` yields exactly one output chunk
`{"type":"assistant","content":"Hello there"}` through the mapper
pipeline. -/
theorem C9_nonstreaming :
    (∀ (data : Opts) (lines : List String) (v : PyVal),
        pyTruthy ((data "stream").getD PyVal.none) = false →
        json_loads (String.join lines) = some v →
        openai_request_decode data lines = ([v], false)) ∧
    requestChunks (openai_request_decode (fun _ => Option.none)
        ["\x7b\"choices\":[\x7b\"text\":\"Hello there\"\x7d]\x7d"]).1 =
      Except.ok [⟨"assistant", PyVal.str "Hello there"⟩] := by
  constructor
  · intro data lines v hs hj
    unfold openai_request_decode
    rw [if_pos hs, hj]
  · rfl

/-- Payload of the C9 witness: no `stream` key at all. -/
def c9Data : Opts := fun _ => Option.none

/-- Witness for C9: the concrete non-streaming body parses to one event
which the decoder yields as the sole element, with no error. -/
theorem C9_nonstreaming_witness :
    openai_request_decode c9Data
        ["\x7b\"choices\":[\x7b\"text\":\"Hello there\"\x7d]\x7d"] =
      ([PyVal.dict [("choices",
          PyVal.list [PyVal.dict [("text", PyVal.str "Hello there")]])]],
       false) :=
  C9_nonstreaming.1 c9Data
    ["\x7b\"choices\":[\x7b\"text\":\"Hello there\"\x7d]\x7d"]
    (PyVal.dict [("choices",
      PyVal.list [PyVal.dict [("text", PyVal.str "Hello there")]])])
    rfl rfl

/-- Claim C10: when the raw option `stream` is the string `"0"`,
normalization coerces it to the boolean `false` and the request builder
includes the key `stream` with value `false` in the payload (it is not
omitted), because `false` is neither the empty-string/`None` sentinel nor
subject to the count-like zero-suppression rule (`stream` is not
count-like). -/
theorem C10_stream_zero (opts res : Opts)
    (h0 : opts "stream" = some (PyVal.str "0"))
    (hres : parse_raw_options opts = Except.ok res)
    (m : PyVal) (hm : res "model" = some m)
    (result : List (String × PyVal))
    (hr : make_codex_options res = some result) :
    res "stream" = some (PyVal.bool false) ∧
    List.lookup "stream" result = some (PyVal.bool false) := by
  have h1 : res "stream" = convertedValue convStream (opts "stream") :=
    foldConv_ok_mem conversions opts res hres (by decide) "stream" convStream
      (List.Mem.tail _ (List.Mem.tail _ (List.Mem.tail _ (List.Mem.tail _
        (List.Mem.tail _ (List.Mem.tail _ (List.Mem.tail _ (List.Mem.tail _
          (List.Mem.head _)))))))))
  rw [h0] at h1
  have h2 : res "stream" = some (PyVal.bool false) := by rw [h1]; rfl
  refine ⟨h2, ?_⟩
  unfold make_codex_options at hr
  rw [hm] at hr
  cases hr
  rw [show List.lookup "stream"
      (("model", m) :: option_keys.filterMap (buildEntry res)) =
    List.lookup "stream" (option_keys.filterMap (buildEntry res)) by
      simp [List.lookup]]
  rw [lookup_buildEntry_mem res option_keys (by decide) "stream" (by decide)]
  exact (buildEntry_map_snd_iff res "stream" (PyVal.bool false)).mpr
    ⟨h2, rfl, fun hc => Bool.noConfusion hc⟩

/-- Raw options of the C10 witness: a model and `stream` as the string
`"0"`. -/
def c10Opts : Opts := fun k =>
  if k = "model" then some (PyVal.str "m")
  else if k = "stream" then some (PyVal.str "0") else Option.none

/-- Witness for C10: on the concrete options, normalization turns `"0"`
into the boolean `false` and the built payload carries `stream = false`. -/
theorem C10_stream_zero_witness :
    (setOpt c10Opts "stream" (PyVal.bool false)) "stream" =
      some (PyVal.bool false) ∧
    List.lookup "stream" [("model", PyVal.str "m"),
      ("stream", PyVal.bool false)] = some (PyVal.bool false) :=
  C10_stream_zero c10Opts (setOpt c10Opts "stream" (PyVal.bool false)) rfl rfl
    (PyVal.str "m") rfl
    [("model", PyVal.str "m"), ("stream", PyVal.bool false)] rfl
